import Mathlib

/-!
Shallow embedding of the streaming data pipeline of the `dtex` terminal data
explorer (files `src/source.rs`, `src/duckdb.rs`, `src/event.rs`,
`src/task.rs`).  Cell values are a type parameter `α`; a Rust panic
(`assert_eq!`, index out of bounds) is modelled by `Option`/`none`; the
fallible chunk stream of `Chunks::next` is modelled as the finite list of its
successive outcomes.
-/

namespace Dtex

/-- A `RecordBatch` (arrow): a fixed schema, a row count, and one list of cell
values per column.  `schema` abstracts `SchemaRef` as the list of field
descriptions; `rows` is `num_rows()`; `cols` are the columns. -/
structure Batch (α : Type) where
  schema : List String
  rows : Nat
  cols : List (List α)
deriving DecidableEq, Repr

/-- `RecordBatch::num_rows`. -/
def Batch.num_rows (b : Batch α) : Nat := b.rows

/-- Modelled from the spec: `array_to_iter` is not under `src/` (only its
caller `DataFrame::iter` is); per the spec it converts one Arrow array —
`&c.columns()[idx]` of a batch `c` — into the sequence of its cell values in
row order.  The column itself is `cols[idx]`; an out-of-range `idx` (a Rust
index panic) is modelled by the empty column default. -/
def Batch.column (b : Batch α) (idx : Nat) : List α := b.cols.getD idx []

/-- `DataFrameImpl` (source.rs:398-403): schema fixed by the first batch, the
ordered chunk list `batchs`, and the cached `row_count`. -/
structure DataFrameImpl (α : Type) where
  schema : List String
  batchs : List (Batch α)
  row_count : Nat
deriving DecidableEq, Repr

/-- `DataFrameImpl::default` (source.rs:425-433) and `DataFrame::empty`. -/
def DataFrameImpl.empty : DataFrameImpl α := ⟨[], [], 0⟩

/-- `DataFrameImpl::push` (source.rs:406-416).  When the store's schema is
still empty the batch resets the store; otherwise `assert_eq!(self.schema,
batch.schema())` guards the append — the assertion failure (a panic, fatal)
is modelled as `none`. -/
def DataFrameImpl.push (d : DataFrameImpl α) (b : Batch α) : Option (DataFrameImpl α) :=
  if d.schema = [] then
    some ⟨b.schema, [b], b.num_rows⟩
  else if d.schema = b.schema then
    some ⟨d.schema, d.batchs ++ [b], d.row_count + b.num_rows⟩
  else
    none

/-- `DataFrameImpl::extend` (source.rs:418-422): push every batch in order;
`none` if any push panics. -/
def DataFrameImpl.extend (d : DataFrameImpl α) : List (Batch α) → Option (DataFrameImpl α)
  | [] => some d
  | b :: rest => (d.push b).bind (fun d2 => d2.extend rest)

/-- `DataFrame::concat` (source.rs:486-490): clone the inner store and extend
the clone.  On values this is the same computation as `extend`; the
copy-on-write `Arc::get_mut` choice in `DataFrame::extend` (source.rs:492-497)
only decides whether the old value is reused in place. -/
def DataFrameImpl.concat (d : DataFrameImpl α) (bs : List (Batch α)) : Option (DataFrameImpl α) :=
  d.extend bs

/-- `FromIterator<RecordBatch> for DataFrame` (source.rs:506-513): extend a
default store with the batches. -/
def DataFrameImpl.from_iter (bs : List (Batch α)) : Option (DataFrameImpl α) :=
  DataFrameImpl.empty.extend bs

/-- `DataFrame::from(RecordBatch)` (source.rs:500-504): the single push on an
empty store, which always takes the schema-reset branch. -/
def DataFrameImpl.ofBatch (b : Batch α) : DataFrameImpl α := ⟨b.schema, [b], b.num_rows⟩

/-- `DataFrame::num_rows` (source.rs:464-466). -/
def DataFrameImpl.num_rows (d : DataFrameImpl α) : Nat := d.row_count

/-- `DataFrame::num_columns` (source.rs:468-470). -/
def DataFrameImpl.num_columns (d : DataFrameImpl α) : Nat := d.schema.length

/-- The `position` scan of `DataFrame::iter` (source.rs:444-451): find the
first batch containing absolute row `skip`, decrementing `skip` by each
earlier batch's row count; returns the batch suffix from that position with
the remaining in-batch skip, or `none` when `skip` is past every batch. -/
def iterScan : List (Batch α) → Nat → Option (List (Batch α) × Nat)
  | [], _ => none
  | a :: rest, skip =>
    if a.num_rows > skip then some (a :: rest, skip) else iterScan rest (skip - a.num_rows)

/-- `DataFrame::iter` (source.rs:443-462): position scan, then flat-map
`array_to_iter` over column `idx` of the remaining chunks, then skip the
remaining in-batch offset; the no-position case iterates over `&[]`. -/
def DataFrameImpl.iter (d : DataFrameImpl α) (idx skip : Nat) : List α :=
  match iterScan d.batchs skip with
  | some (chunks, skip2) => (chunks.flatMap (fun c => c.column idx)).drop skip2
  | none => []

/-- The whole of column `idx` in row order: the concatenation of that column
over every batch.  This is the reference object the windowed `iter` is
checked against. -/
def DataFrameImpl.column (d : DataFrameImpl α) (idx : Nat) : List α :=
  d.batchs.flatMap (fun c => c.column idx)

/-- The store invariant of the spec: `num_rows()` equals the sum of
`num_rows()` over all contained batches. -/
def DataFrameImpl.Inv (d : DataFrameImpl α) : Prop :=
  d.num_rows = (d.batchs.map Batch.num_rows).sum

instance (d : DataFrameImpl α) : Decidable d.Inv := by
  unfold DataFrameImpl.Inv; infer_instance

/-- One outcome sequence of `Chunks` (duckdb.rs:95-118): the list of the
successive `Chunks::next()` results before the cursor is exhausted.  `.ok b`
is a fetched batch, `.error e` a chunk-fetch failure; the list ending models
`duckdb_stream_fetch_chunk` returning null with no error (`None`). -/
abbrev ChunkStream (α : Type) := List (Except String (Batch α))

instance exceptDecEq [DecidableEq ε] [DecidableEq β] : DecidableEq (Except ε β)
  | .ok x, .ok y =>
    if h : x = y then .isTrue (congrArg Except.ok h)
    else .isFalse (fun hh => h (Except.ok.inj hh))
  | .error x, .error y =>
    if h : x = y then .isTrue (congrArg Except.error h)
    else .isFalse (fun hh => h (Except.error.inj hh))
  | .ok _, .error _ => .isFalse (fun hh => Except.noConfusion hh)
  | .error _, .ok _ => .isFalse (fun hh => Except.noConfusion hh)

/-- The mutex-guarded `Pending` buffer shared between worker and consumer
(source.rs:25-29). -/
structure Pending (α : Type) where
  batches : List (Batch α)
  full : Bool
  error : Option String
deriving DecidableEq, Repr

/-- The worker thread's private state: its running `loaded` row count, its
local unpublished `buff`, and the remaining chunk stream. -/
structure WorkerState (α : Type) where
  loaded : Nat
  buff : List (Batch α)
  stream : ChunkStream α
deriving DecidableEq, Repr

/-- How one wake-to-park run of the worker loop ended. -/
inductive BurstEnd
  | parked
  | canceledExit
  | markedFull
  | markedError
deriving DecidableEq, Repr

/-- Result of one wake-to-park/exit run of the worker: final worker state,
final shared pending buffer, how the run ended, and the number of
`chunks.next()` calls it performed. -/
structure BurstResult (α : Type) where
  w : WorkerState α
  pending : Pending α
  ended : BurstEnd
  nextCalls : Nat
deriving DecidableEq, Repr

/-- The inner `while loaded < state.goal` loop of `worker` (source.rs:159-179)
with explicit worker-local state: check the goal, check the cancellation
reference count, fetch.  On `Some(Ok(batch))` the batch is buffered and the
loop continues; on `Some(Err)` the error is recorded and the worker returns;
on `None` the stream is marked full and the worker returns.  In both returning
branches the local `buff` is abandoned, not published.  Returns the worker
state, the pending buffer, `some end` when the worker returned inside the
loop, and the accumulated `chunks.next()` call count. -/
def workerWhileGo (goal : Nat) (isCanceled : Bool) :
    Nat → List (Batch α) → ChunkStream α → Pending α → Nat →
    WorkerState α × Pending α × Option BurstEnd × Nat
  | loaded, buff, stream, p, calls =>
    if loaded < goal then
      if isCanceled then (⟨loaded, buff, stream⟩, p, some .canceledExit, calls)
      else
        match stream with
        | [] => (⟨loaded, buff, []⟩, { p with full := true }, some .markedFull, calls + 1)
        | .ok b :: rest =>
          workerWhileGo goal isCanceled (loaded + b.num_rows) (buff ++ [b]) rest p (calls + 1)
        | .error e :: rest =>
          (⟨loaded, buff, rest⟩, { p with error := some e }, some .markedError, calls + 1)
    else (⟨loaded, buff, stream⟩, p, none, calls)

/-- One wake-to-park/exit run of the `worker` loop body (source.rs:158-189):
the inner while loop, then the post-loop cancellation check, then publication
of a non-empty `buff` into the shared pending buffer, then `park`.  The
cancellation flag is sampled per run (the consumer drops its handle between
runs; the instruction-level interleaving is `fineStep` below). -/
def workerBurst (goal : Nat) (isCanceled : Bool) (w : WorkerState α) (p : Pending α) :
    BurstResult α :=
  match workerWhileGo goal isCanceled w.loaded w.buff w.stream p 0 with
  | (w2, p2, some e, n) => ⟨w2, p2, e, n⟩
  | (w2, p2, none, n) =>
    if isCanceled then ⟨w2, p2, .canceledExit, n⟩
    else if !w2.buff.isEmpty then
      ⟨{ w2 with buff := [] }, { p2 with batches := p2.batches ++ w2.buff }, .parked, n⟩
    else ⟨w2, p2, .parked, n⟩

/-- `FrameSource` (source.rs:36-48).  The `Streaming` variant carries the
consumer's view of the shared `StreamingState` (`goal` atomic and `pending`
mutex) plus the drained `df`; the worker thread handle is implicit. -/
inductive FrameSource (α : Type) where
  | Full (df : DataFrameImpl α)
  | Error (df : DataFrameImpl α) (error : String)
  | Streaming (goal : Nat) (pending : Pending α) (df : DataFrameImpl α) (is_loading : Bool)
deriving DecidableEq, Repr

/-- `FrameSource::df` (source.rs:126-132). -/
def FrameSource.df : FrameSource α → DataFrameImpl α
  | .Full df | .Error df _ | .Streaming _ _ df _ => df

/-- The batches currently in the shared pending buffer, as visible from the
consumer state (model projection of the `Arc<StreamingState>`). -/
def FrameSource.pendingBatches : FrameSource α → List (Batch α)
  | .Streaming _ p _ _ => p.batches
  | _ => []

/-- `FrameSource::streaming` (source.rs:59-84): the consumer starts in
`Streaming` with goal 0, an empty pending buffer and the preload as `df`; the
spawned worker starts with `loaded` equal to the preload's row count and the
remaining chunk stream. -/
def FrameSource.streaming (preload : DataFrameImpl α) (chunks : ChunkStream α) :
    FrameSource α × WorkerState α :=
  (.Streaming 0 ⟨[], false, none⟩ preload true, ⟨preload.num_rows, [], chunks⟩)

/-- `FrameSource::tick` (source.rs:86-110): drain the pending batches into
`df` (a schema-mismatch panic of `extend` is `none`), then transition to
`Full` if the stream was marked full, to `Error` if an error was recorded,
else stay `Streaming` and recompute `is_loading`. -/
def FrameSource.tick : FrameSource α → Option (FrameSource α)
  | .Streaming goal p df _il =>
    (df.extend p.batches).map (fun df2 =>
      if p.full then .Full df2
      else
        match p.error with
        | some e => .Error df2 e
        | none => .Streaming goal { p with batches := [] } df2 (decide (goal > df2.num_rows)))
  | fs => some fs

/-- `FrameSource::goal` (source.rs:112-124): store the new goal and unpark the
worker only when it exceeds the drained row count.  Returns the new consumer
state and whether the worker was woken. -/
def FrameSource.goal : FrameSource α → Nat → FrameSource α × Bool
  | .Streaming g p df il, newGoal =>
    if newGoal > df.num_rows then (.Streaming newGoal p df il, true)
    else (.Streaming g p df il, false)
  | fs, _ => (fs, false)

/-- The streaming branch of `Loader::load` (source.rs:216-223): fetch exactly
the first chunk synchronously as the preload (`chunks.next()`; an exhausted
stream preloads the default frame, an error aborts the task), and hand the
preload plus the remaining cursor to `FrameSource::streaming`. -/
def Loader.preload (s : ChunkStream α) : Except String (DataFrameImpl α × ChunkStream α) :=
  match s with
  | [] => .ok (DataFrameImpl.empty, [])
  | .ok b :: rest => .ok (DataFrameImpl.ofBatch b, rest)
  | .error e :: _rest => .error e

/-- The eager collection of a whole stream, stopping at the first error:
`chunks.map(|r| r.map_err(..)).collect::<Result<DataFrame>>()`. -/
def eagerCollect : ChunkStream α → Except String (List (Batch α))
  | [] => .ok []
  | .ok b :: rest => (eagerCollect rest).map (fun bs => b :: bs)
  | .error e :: _rest => .error e

/-- The `full` branch of `Loader::load` (source.rs:213-215): the eager full
load of a source's stream into one store (`none` inside models a panic of the
collecting extend). -/
def Loader.loadFull (s : ChunkStream α) : Except String (Option (DataFrameImpl α)) :=
  (eagerCollect s).map DataFrameImpl.from_iter

/-- Program points of the `worker` loop (source.rs:151-190), one per
observable action, for the instruction-level cancellation analysis. -/
inductive WPc
  | whileCheck
  | cancelCheckA
  | fetch
  | cancelCheckB
  | publish
  | parked
  | exited
deriving DecidableEq, Repr

/-- Instruction-level worker state: program point, the shared goal, the
worker-local counters and buffers, the shared pending buffer, and whether the
consumer handle has been dropped (`Arc::strong_count == 1`). -/
structure FineState (α : Type) where
  pc : WPc
  goal : Nat
  loaded : Nat
  buff : List (Batch α)
  stream : ChunkStream α
  pending : Pending α
  canceled : Bool
deriving DecidableEq, Repr

/-- One instruction-level step of the `worker` loop (source.rs:151-190):
`whileCheck` evaluates `loaded < goal`; `cancelCheckA`/`cancelCheckB` are the
two `Arc::strong_count(&state) == 1` checks (exiting when the count is 1);
`fetch` performs `chunks.next()` and dispatches on its outcome; `publish`
appends a non-empty `buff` to the shared pending buffer; `parked` resumes at
the loop head once unparked (after a drop, `FrameSource::drop`
(source.rs:142-149) has unparked the worker). -/
def fineStep (s : FineState α) : FineState α :=
  match s.pc with
  | .whileCheck =>
    if s.loaded < s.goal then { s with pc := .cancelCheckA } else { s with pc := .cancelCheckB }
  | .cancelCheckA => if s.canceled then { s with pc := .exited } else { s with pc := .fetch }
  | .fetch =>
    match s.stream with
    | [] => { s with pc := .exited, pending := { s.pending with full := true } }
    | .ok b :: rest =>
      { s with pc := .whileCheck, loaded := s.loaded + b.num_rows,
               buff := s.buff ++ [b], stream := rest }
    | .error e :: rest =>
      { s with pc := .exited, stream := rest, pending := { s.pending with error := some e } }
  | .cancelCheckB => if s.canceled then { s with pc := .exited } else { s with pc := .publish }
  | .publish =>
    if s.buff.isEmpty then { s with pc := .parked }
    else { s with pc := .parked, buff := [],
                  pending := { s.pending with batches := s.pending.batches ++ s.buff } }
  | .parked => { s with pc := .whileCheck }
  | .exited => s

/-- Iterate `fineStep`. -/
def fineStepN : Nat → FineState α → FineState α
  | 0, s => s
  | n + 1, s => fineStepN n (fineStep s)

/-- Number of `chunks.next()` calls performed during the next `n` instruction
steps: a call happens exactly when a step executes from the `fetch` point. -/
def fetchCount (s : FineState α) : Nat → Nat
  | 0 => 0
  | n + 1 => (if s.pc = .fetch then 1 else 0) + fetchCount (fineStep s) n

/-- Native C-API calls that `Connection::chunks` (duckdb.rs:234-263) can
issue.  `pendingExecuteTask` (`duckdb_pending_execute_task`, the per-increment
tri-state drive) is in the alphabet so the spec's drive loop can be stated; the
code never issues it. -/
inductive NativeCall
  | prepare
  | pendingPreparedStreaming
  | executePending
  | pendingExecuteTask
  | destroyResult
  | destroyPrepare
  | destroyPending
deriving DecidableEq, Repr

/-- Errors of the engine wrapper (duckdb.rs:40-48), restricted to the variants
`Connection::chunks` produces. -/
inductive DuckErr
  | Prepare (msg : String)
  | Unknown
deriving DecidableEq, Repr

/-- Outcomes of the three native calls attempted by `Connection::chunks`: does
`duckdb_prepare` succeed (else failing with `prepareMsg`), does
`duckdb_pending_prepared_streaming` succeed, does `duckdb_execute_pending`
succeed. -/
structure EngineRun where
  prepareOk : Bool
  prepareMsg : String
  pendingOk : Bool
  execOk : Bool
deriving DecidableEq, Repr

/-- `Connection::chunks` (duckdb.rs:234-263): the ordered native-call trace
and the outcome.  The inner closure runs prepare, then the pending-streaming
conversion, then one `duckdb_execute_pending` call (destroying the result if
that call fails); afterwards the prepared statement and pending handles are
destroyed unconditionally, and on success the result is wrapped in `Chunks`. -/
def Connection.chunks (e : EngineRun) : List NativeCall × Except DuckErr Unit :=
  if !e.prepareOk then
    ([.prepare, .destroyPrepare, .destroyPending], .error (.Prepare e.prepareMsg))
  else if !e.pendingOk then
    ([.prepare, .pendingPreparedStreaming, .destroyPrepare, .destroyPending], .error .Unknown)
  else if !e.execOk then
    ([.prepare, .pendingPreparedStreaming, .executePending, .destroyResult,
      .destroyPrepare, .destroyPending], .error .Unknown)
  else
    ([.prepare, .pendingPreparedStreaming, .executePending, .destroyPrepare, .destroyPending],
      .ok ())

/-- The drive loop the spec describes, modelled from the spec's words: the
implementation "repeatedly drives the pending result one
execution-task-increment at a time, checking a tri-state signal" exactly when
its call trace contains at least one `pendingExecuteTask` increment. -/
def usesIncrementalDrive (trace : List NativeCall) : Prop :=
  0 < trace.count NativeCall.pendingExecuteTask

instance (t : List NativeCall) : Decidable (usesIncrementalDrive t) := by
  unfold usesIncrementalDrive; infer_instance

/-- State of the `oneshot` channel between a background worker thread and its
`Task`/`DuckTask` handle: nothing sent yet, a result sent, or the sender
dropped without sending (the worker terminated without delivering). -/
inductive OneshotState (τ : Type)
  | empty
  | sent (v : τ)
  | disconnected
deriving DecidableEq, Repr

/-- `oneshot::TryRecvError`. -/
inductive TryRecvErr
  | Empty
  | Disconnected
deriving DecidableEq, Repr

/-- `oneshot::Receiver::try_recv`. -/
def tryRecv : OneshotState τ → Except TryRecvErr τ
  | .sent v => .ok v
  | .empty => .error .Empty
  | .disconnected => .error .Disconnected

/-- `Task::tick` (event.rs:40-50): `Ok(result)` becomes
`Some(result).transpose()`, `Empty` is `Ok(None)` (still pending),
`Disconnected` is `Err("Task failed without error")`. -/
def Task.tick (c : OneshotState (Except String τ)) : Except String (Option τ) :=
  match tryRecv c with
  | .ok (.ok v) => .ok (some v)
  | .ok (.error e) => .error e
  | .error .Empty => .ok none
  | .error .Disconnected => .error "Task failed without error"

/-- `DuckTask::tick` (task.rs:154-164): same tri-state surface with the result
kept as `Option<Result<T>>`. -/
def DuckTask.tick (c : OneshotState (Except String τ)) : Option (Except String τ) :=
  match tryRecv c with
  | .ok r => some r
  | .error .Empty => none
  | .error .Disconnected => some (.error "Task failed without error")

/-- Scenario batch: one row, one column of schema `["a"]`, cell value 10. -/
def bA : Batch Nat := ⟨["a"], 1, [[10]]⟩

/-- Scenario batch: one row, cell value 20, same schema as `bA`. -/
def bB : Batch Nat := ⟨["a"], 1, [[20]]⟩

/-- Round-trip scenario: a source whose full stream is the two one-row chunks
`bA, bB`. -/
def streamC1 : ChunkStream Nat := [.ok bA, .ok bB]

/-- The preload frame of `streamC1`: its first chunk. -/
def preloadC1 : DataFrameImpl Nat := DataFrameImpl.ofBatch bA

/-- The worker run of the round-trip scenario: goal 3, loaded starts at the
preload's 1 row, remaining stream `[bB]`. -/
def burstC1 : BurstResult Nat :=
  workerBurst 3 false ⟨preloadC1.num_rows, [], [.ok bB]⟩ ⟨[], false, none⟩

/-- The consumer tick after the round-trip scenario's worker run. -/
def tickC1 : Option (FrameSource Nat) :=
  (FrameSource.Streaming 3 burstC1.pending preloadC1 true).tick

/-- Error-preservation scenario: after the preload `bA`, the stream yields one
more chunk `bB` and then fails with message "boom". -/
def streamC2rest : ChunkStream Nat := [.ok bB, .error "boom"]

/-- The worker run of the error scenario: goal 3, loaded starts at 1. -/
def burstC2 : BurstResult Nat :=
  workerBurst 3 false ⟨1, [], streamC2rest⟩ ⟨[], false, none⟩

/-- The consumer tick after the error scenario's worker run. -/
def tickC2 : Option (FrameSource Nat) :=
  (FrameSource.Streaming 3 burstC2.pending (DataFrameImpl.ofBatch bA) true).tick

/-- Goal-semantics scenario batch: ten rows. -/
def bT : Batch Nat := ⟨["a"], 10, [[2, 2, 2, 2, 2, 2, 2, 2, 2, 2]]⟩

/-- Goal scenario: streaming frame whose preload is the one-row `bA`. -/
def fsC3 : FrameSource Nat := (FrameSource.streaming (DataFrameImpl.ofBatch bA) [.ok bT]).1

/-- Goal scenario worker run: goal 2 fetches the ten-row chunk `bT`. -/
def burstC3 : BurstResult Nat := workerBurst 2 false ⟨1, [], [.ok bT]⟩ ⟨[], false, none⟩

/-- Goal scenario consumer state after draining: eleven rows at goal 2. -/
def fsC3b : FrameSource Nat :=
  (FrameSource.Streaming 2 burstC3.pending (DataFrameImpl.ofBatch bA) true).tick.getD
    (.Full DataFrameImpl.empty)

/-- Scenario A chunk: 1000 rows of value `v` in one column of schema `["a"]`. -/
def chunk1000 (v : Nat) : Batch Nat := ⟨["a"], 1000, [List.replicate 1000 v]⟩

/-- Scenario A: a 10,000-row source in ten 1000-row chunks. -/
def streamC5 : ChunkStream Nat := (List.range 10).map (fun i => .ok (chunk1000 i))

/-- Scenario A preload: the first 1000-row chunk. -/
def preloadC5 : DataFrameImpl Nat := DataFrameImpl.ofBatch (chunk1000 0)

/-- Scenario A remaining stream after the preload. -/
def restC5 : ChunkStream Nat := (List.range 9).map (fun i => .ok (chunk1000 (i + 1)))

/-- Scenario A initial worker run: the spawned worker starts with
`loaded = 1000` against the initial goal 0. -/
def initialBurstC5 : BurstResult Nat :=
  workerBurst 0 false ⟨preloadC5.num_rows, [], restC5⟩ ⟨[], false, none⟩

end Dtex

namespace Dtex

theorem empty_inv : (DataFrameImpl.empty (α := α)).Inv := rfl

theorem push_inv {d d' : DataFrameImpl α} {b : Batch α} (h : d.push b = some d')
    (hd : d.Inv) : d'.Inv := by
  unfold DataFrameImpl.push at h
  split at h
  · cases h
    simp [DataFrameImpl.Inv, DataFrameImpl.num_rows]
  · split at h
    · cases h
      simp only [DataFrameImpl.Inv, DataFrameImpl.num_rows] at hd ⊢
      simp [hd, Nat.add_comm]
    · cases h

theorem extend_inv {d d' : DataFrameImpl α} {bs : List (Batch α)}
    (h : d.extend bs = some d') (hd : d.Inv) : d'.Inv := by
  induction bs generalizing d with
  | nil => cases h; exact hd
  | cons b rest ih =>
    unfold DataFrameImpl.extend at h
    cases hp : d.push b with
    | none => rw [hp] at h; cases h
    | some d2 =>
      rw [hp] at h
      exact ih h (push_inv hp hd)

/-- C6: for every store produced by `empty`, `from_iter`, `concat` or any
sequence of `push`/`extend` calls, `num_rows()` equals the sum of `num_rows()`
over all contained record batches, and every store operation preserves this
equality. -/
theorem store_row_count_invariant (α : Type) :
    (DataFrameImpl.empty (α := α)).Inv
  ∧ (∀ (bs : List (Batch α)) (d : DataFrameImpl α),
      DataFrameImpl.from_iter bs = some d → d.Inv)
  ∧ (∀ (d : DataFrameImpl α) (b : Batch α) (d' : DataFrameImpl α),
      d.push b = some d' → d.Inv → d'.Inv)
  ∧ (∀ (d : DataFrameImpl α) (bs : List (Batch α)) (d' : DataFrameImpl α),
      d.extend bs = some d' → d.Inv → d'.Inv)
  ∧ (∀ (d : DataFrameImpl α) (bs : List (Batch α)) (d' : DataFrameImpl α),
      d.concat bs = some d' → d.Inv → d'.Inv) := by
  refine ⟨empty_inv, ?_, ?_, ?_, ?_⟩
  · intro bs d h; exact extend_inv h empty_inv
  · intro d b d' h hd; exact push_inv h hd
  · intro d bs d' h hd; exact extend_inv h hd
  · intro d bs d' h hd; exact extend_inv h hd

theorem store_row_count_invariant_witness :
    (⟨["a"], [bA, bB], 2⟩ : DataFrameImpl Nat).Inv :=
  (store_row_count_invariant Nat).2.1 [bA, bB] ⟨["a"], [bA, bB], 2⟩ (by decide)

/-- C7: once the store's schema is fixed and non-empty, extending with
batches that all match the schema never panics and appends them all in order;
extending with some batch whose schema differs halts with the fatal
`assert_eq!` (modelled as `none`), not a recoverable error. -/
theorem extend_schema_check (d : DataFrameImpl α) (bs : List (Batch α))
    (hne : d.schema ≠ []) :
    ((∀ b ∈ bs, b.schema = d.schema) →
      ∃ d', d.extend bs = some d' ∧ d'.batchs = d.batchs ++ bs ∧ d'.schema = d.schema)
  ∧ ((∃ b ∈ bs, b.schema ≠ d.schema) → d.extend bs = none) := by
  induction bs generalizing d with
  | nil =>
    refine ⟨fun _ => ⟨d, rfl, by simp, rfl⟩, ?_⟩
    rintro ⟨b, hb, _⟩
    simp at hb
  | cons b rest ih =>
    constructor
    · intro hall
      have hb : b.schema = d.schema := hall b (by simp)
      have hpush : d.push b = some ⟨d.schema, d.batchs ++ [b], d.row_count + b.num_rows⟩ := by
        unfold DataFrameImpl.push
        rw [if_neg hne, if_pos hb.symm]
      obtain ⟨d', h1, h2, h3⟩ :=
        (ih ⟨d.schema, d.batchs ++ [b], d.row_count + b.num_rows⟩ hne).1
          (fun x hx => hall x (by simp [hx]))
      refine ⟨d', ?_, ?_, h3⟩
      · unfold DataFrameImpl.extend
        rw [hpush, Option.some_bind]
        exact h1
      · rw [h2]
        simp
    · rintro ⟨x, hx, hxne⟩
      rcases List.mem_cons.mp hx with hxb | hxr
      · subst hxb
        have hpush : d.push x = none := by
          unfold DataFrameImpl.push
          rw [if_neg hne, if_neg (fun h => hxne h.symm)]
        unfold DataFrameImpl.extend
        rw [hpush]
        rfl
      · by_cases hb : b.schema = d.schema
        · have hpush : d.push b = some ⟨d.schema, d.batchs ++ [b], d.row_count + b.num_rows⟩ := by
            unfold DataFrameImpl.push
            rw [if_neg hne, if_pos hb.symm]
          have := (ih ⟨d.schema, d.batchs ++ [b], d.row_count + b.num_rows⟩ hne).2 ⟨x, hxr, hxne⟩
          unfold DataFrameImpl.extend
          rw [hpush, Option.some_bind]
          exact this
        · have hpush : d.push b = none := by
            unfold DataFrameImpl.push
            rw [if_neg hne, if_neg (fun h => hb h.symm)]
          unfold DataFrameImpl.extend
          rw [hpush]
          rfl

theorem extend_schema_check_witness :
    ∃ d', (⟨["a"], [bA], 1⟩ : DataFrameImpl Nat).extend [bB] = some d'
      ∧ d'.batchs = [bA] ++ [bB] ∧ d'.schema = ["a"] :=
  (extend_schema_check ⟨["a"], [bA], 1⟩ [bB] (by decide)).1 (by decide)

theorem drop_append_of_length_le (l1 l2 : List β) (n : Nat) (h : l1.length ≤ n) :
    (l1 ++ l2).drop n = l2.drop (n - l1.length) := by
  induction l1 generalizing n with
  | nil => simp
  | cons a t ih =>
    cases n with
    | zero => simp at h
    | succ m =>
      simp only [List.length_cons] at h ⊢
      simpa using ih m (Nat.le_of_succ_le_succ h)

theorem column_length (bs : List (Batch α)) (idx : Nat)
    (h : ∀ b ∈ bs, (b.column idx).length = b.num_rows) :
    (bs.flatMap (fun c => c.column idx)).length = (bs.map Batch.num_rows).sum := by
  induction bs with
  | nil => rfl
  | cons a t ih =>
    simp only [List.flatMap_cons, List.length_append, List.map_cons, List.sum_cons,
      h a (by simp)]
    rw [ih (fun b hb => h b (by simp [hb]))]

theorem iterScan_none (bs : List (Batch α)) (idx skip : Nat)
    (h : ∀ b ∈ bs, (b.column idx).length = b.num_rows)
    (hs : iterScan bs skip = none) :
    (bs.flatMap (fun c => c.column idx)).drop skip = [] := by
  induction bs generalizing skip with
  | nil => simp
  | cons a t ih =>
    unfold iterScan at hs
    by_cases hgt : a.num_rows > skip
    · rw [if_pos hgt] at hs; cases hs
    · rw [if_neg hgt] at hs
      have hle : a.num_rows ≤ skip := Nat.le_of_not_lt hgt
      rw [List.flatMap_cons,
        drop_append_of_length_le _ _ _ (by rw [h a (by simp)]; exact hle),
        h a (by simp)]
      exact ih _ (fun b hb => h b (by simp [hb])) hs

theorem iterScan_some (bs : List (Batch α)) (idx skip : Nat)
    (chunks : List (Batch α)) (s2 : Nat)
    (h : ∀ b ∈ bs, (b.column idx).length = b.num_rows)
    (hs : iterScan bs skip = some (chunks, s2)) :
    (chunks.flatMap (fun c => c.column idx)).drop s2
      = (bs.flatMap (fun c => c.column idx)).drop skip := by
  induction bs generalizing skip with
  | nil => cases hs
  | cons a t ih =>
    unfold iterScan at hs
    by_cases hgt : a.num_rows > skip
    · rw [if_pos hgt] at hs
      cases hs
      rfl
    · rw [if_neg hgt] at hs
      have hle : a.num_rows ≤ skip := Nat.le_of_not_lt hgt
      rw [List.flatMap_cons,
        drop_append_of_length_le _ _ _ (by rw [h a (by simp)]; exact hle),
        h a (by simp)]
      exact ih _ (fun b hb => h b (by simp [hb])) hs

theorem iter_eq_drop (d : DataFrameImpl α) (idx skip : Nat)
    (h : ∀ b ∈ d.batchs, (b.column idx).length = b.num_rows) :
    d.iter idx skip = (d.column idx).drop skip := by
  unfold DataFrameImpl.iter DataFrameImpl.column
  cases hs : iterScan d.batchs skip with
  | none => exact (iterScan_none d.batchs idx skip h hs).symm
  | some v => exact iterScan_some d.batchs idx skip v.1 v.2 h hs

/-- C8: for a store whose column `idx` is valid (present in every batch with
the batch's row count), `iter(idx, skip)` yields exactly the column's values
from absolute row `skip` on, in order and across chunk boundaries — element
`j` of the window is the column value at absolute row `skip + j` — and is
empty when `skip ≥ num_rows()`. -/
theorem iter_window (d : DataFrameImpl α) (idx skip : Nat)
    (hidx : idx < d.num_columns)
    (hcols : ∀ b ∈ d.batchs, (b.column idx).length = b.num_rows)
    (hinv : d.Inv) :
    (∀ j, (d.iter idx skip).get? j = (d.column idx).get? (skip + j))
  ∧ (d.num_rows ≤ skip → d.iter idx skip = []) := by
  have hd := iter_eq_drop d idx skip hcols
  constructor
  · intro j
    rw [hd, List.get?_drop]
  · intro hskip
    rw [hd]
    apply List.drop_eq_nil_of_le
    unfold DataFrameImpl.column
    rw [column_length d.batchs idx hcols]
    exact hinv ▸ hskip

theorem iter_window_witness :
    (∀ j, ((⟨["a"], [bA, bB], 2⟩ : DataFrameImpl Nat).iter 0 1).get? j
        = ((⟨["a"], [bA, bB], 2⟩ : DataFrameImpl Nat).column 0).get? (1 + j))
  ∧ ((⟨["a"], [bA, bB], 2⟩ : DataFrameImpl Nat).num_rows ≤ 1 →
      (⟨["a"], [bA, bB], 2⟩ : DataFrameImpl Nat).iter 0 1 = []) :=
  iter_window ⟨["a"], [bA, bB], 2⟩ 0 1 (by decide) (by decide) (by decide)

theorem workerWhileGo_ge (goal : Nat) (c : Bool) (loaded : Nat) (buff : List (Batch α))
    (stream : ChunkStream α) (p : Pending α) (calls : Nat) (h : ¬ loaded < goal) :
    workerWhileGo goal c loaded buff stream p calls = (⟨loaded, buff, stream⟩, p, none, calls) := by
  unfold workerWhileGo
  rw [if_neg h]

theorem workerBurst_caught_up (goal : Nat) (c : Bool) (w : WorkerState α) (p : Pending α)
    (h : goal ≤ w.loaded) : (workerBurst goal c w p).nextCalls = 0 := by
  unfold workerBurst
  rw [workerWhileGo_ge goal c w.loaded w.buff w.stream p 0 (Nat.not_lt.mpr h)]
  dsimp only
  split
  · rfl
  · split <;> rfl

theorem workerWhileGo_spec (goal : Nat) (c : Bool) (stream : ChunkStream α) :
    ∀ (loaded : Nat) (buff : List (Batch α)) (p : Pending α) (calls : Nat)
      (w2 : WorkerState α) (p2 : Pending α) (oe : Option BurstEnd) (n : Nat),
    workerWhileGo goal c loaded buff stream p calls = (w2, p2, oe, n) →
    (oe = none → goal ≤ w2.loaded) ∧ (∀ e, oe = some e → e ≠ .parked) := by
  induction stream with
  | nil =>
    intro loaded buff p calls w2 p2 oe n h
    unfold workerWhileGo at h
    by_cases hl : loaded < goal
    · rw [if_pos hl] at h
      by_cases hc : c = true
      · rw [if_pos hc] at h
        simp only [Prod.mk.injEq] at h
        obtain ⟨h1, h2, h3, h4⟩ := h
        subst h3
        refine ⟨fun hh => Option.noConfusion hh, fun e he => ?_⟩
        injection he with he2
        subst he2
        decide
      · rw [if_neg hc] at h
        dsimp only at h
        simp only [Prod.mk.injEq] at h
        obtain ⟨h1, h2, h3, h4⟩ := h
        subst h3
        refine ⟨fun hh => Option.noConfusion hh, fun e he => ?_⟩
        injection he with he2
        subst he2
        decide
    · rw [if_neg hl] at h
      simp only [Prod.mk.injEq] at h
      obtain ⟨h1, h2, h3, h4⟩ := h
      subst h3
      subst h1
      exact ⟨fun _ => Nat.le_of_not_lt hl, fun e he => Option.noConfusion he⟩
  | cons hd tl ih =>
    intro loaded buff p calls w2 p2 oe n h
    unfold workerWhileGo at h
    by_cases hl : loaded < goal
    · rw [if_pos hl] at h
      by_cases hc : c = true
      · rw [if_pos hc] at h
        simp only [Prod.mk.injEq] at h
        obtain ⟨h1, h2, h3, h4⟩ := h
        subst h3
        refine ⟨fun hh => Option.noConfusion hh, fun e he => ?_⟩
        injection he with he2
        subst he2
        decide
      · rw [if_neg hc] at h
        cases hd with
        | ok b =>
          dsimp only at h
          exact ih _ _ _ _ _ _ _ _ h
        | error emsg =>
          dsimp only at h
          simp only [Prod.mk.injEq] at h
          obtain ⟨h1, h2, h3, h4⟩ := h
          subst h3
          refine ⟨fun hh => Option.noConfusion hh, fun e he => ?_⟩
          injection he with he2
          subst he2
          decide
    · rw [if_neg hl] at h
      simp only [Prod.mk.injEq] at h
      obtain ⟨h1, h2, h3, h4⟩ := h
      subst h3
      subst h1
      exact ⟨fun _ => Nat.le_of_not_lt hl, fun e he => Option.noConfusion he⟩

theorem workerBurst_parked_loaded (goal : Nat) (c : Bool) (w : WorkerState α) (p : Pending α)
    (h : (workerBurst goal c w p).ended = .parked) :
    goal ≤ (workerBurst goal c w p).w.loaded := by
  unfold workerBurst at h ⊢
  obtain ⟨⟨w2, p2, oe, n⟩, hgo⟩ :
      ∃ r, workerWhileGo goal c w.loaded w.buff w.stream p 0 = r := ⟨_, rfl⟩
  have hspec := workerWhileGo_spec goal c w.stream w.loaded w.buff p 0 w2 p2 oe n hgo
  rw [hgo] at h ⊢
  cases oe with
  | some e =>
    dsimp only at h ⊢
    exact absurd h (hspec.2 e rfl)
  | none =>
    dsimp only at h ⊢
    by_cases hc : c = true
    · rw [if_pos hc] at h
      simp at h
    · rw [if_neg hc] at h ⊢
      by_cases hb : (!w2.buff.isEmpty) = true
      · rw [if_pos hb] at h ⊢
        exact hspec.1 rfl
      · rw [if_neg hb] at h ⊢
        exact hspec.1 rfl

/-- C3 (amended): re-setting the same goal is idempotent on the consumer state
and triggers no chunk fetch once the worker is caught up (a parked worker run
implies `loaded ≥ goal`, and a run starting caught up performs zero
`chunks.next()` calls); a `goal(g)` call stores the goal and wakes the worker
if and only if `g` exceeds the drained `df.num_rows()` — otherwise it is
inert — and no `goal` call ever discards a fetched chunk (the drained store
and the shared pending buffer are untouched). -/
theorem goal_update_semantics (fs : FrameSource α) (g : Nat) :
    ((fs.goal g).1.goal g).1 = (fs.goal g).1
  ∧ ((fs.goal g).2 = true ↔
      (∃ g0 p df il, fs = .Streaming g0 p df il ∧ df.num_rows < g))
  ∧ (g ≤ fs.df.num_rows → fs.goal g = (fs, false))
  ∧ ((fs.goal g).1.df = fs.df ∧ (fs.goal g).1.pendingBatches = fs.pendingBatches)
  ∧ (∀ (c : Bool) (w : WorkerState α) (p : Pending α),
      g ≤ w.loaded → (workerBurst g c w p).nextCalls = 0)
  ∧ (∀ (c : Bool) (w : WorkerState α) (p : Pending α),
      (workerBurst g c w p).ended = .parked → g ≤ (workerBurst g c w p).w.loaded) := by
  refine ⟨?_, ?_, ?_, ?_, fun c w p h => workerBurst_caught_up g c w p h,
    fun c w p h => workerBurst_parked_loaded g c w p h⟩
  · cases fs with
    | Streaming g0 p df il =>
      by_cases hg : g > df.num_rows <;>
        simp [FrameSource.goal, hg]
    | Full df => rfl
    | Error df e => rfl
  · cases fs with
    | Streaming g0 p df il =>
      by_cases hg : g > df.num_rows
      · simp only [FrameSource.goal, if_pos hg]
        exact ⟨fun _ => ⟨g0, p, df, il, rfl, hg⟩, fun _ => by simp⟩
      · simp only [FrameSource.goal, if_neg hg]
        constructor
        · intro hh; cases hh
        · rintro ⟨g1, p1, df1, il1, heq, hlt⟩
          injection heq with e1 e2 e3 e4
          subst e3
          exact absurd hlt hg
    | Full df =>
      constructor
      · intro hh; cases hh
      · rintro ⟨g1, p1, df1, il1, heq, _⟩
        exact FrameSource.noConfusion heq
    | Error df e =>
      constructor
      · intro hh; cases hh
      · rintro ⟨g1, p1, df1, il1, heq, _⟩
        exact FrameSource.noConfusion heq
  · cases fs with
    | Streaming g0 p df il =>
      intro hle
      have hng : ¬ g > df.num_rows := by
        simp only [FrameSource.df] at hle
        omega
      simp only [FrameSource.goal, if_neg hng]
    | Full df => intro _; rfl
    | Error df e => intro _; rfl
  · cases fs with
    | Streaming g0 p df il =>
      by_cases hg : g > df.num_rows <;>
        simp [FrameSource.goal, FrameSource.df, FrameSource.pendingBatches, hg]
    | Full df => exact ⟨rfl, rfl⟩
    | Error df e => exact ⟨rfl, rfl⟩

theorem goal_update_semantics_witness :
    2 ≤ (3 : Nat)
  ∧ (workerBurst 2 false ⟨3, [], []⟩ (⟨[], false, none⟩ : Pending Nat)).nextCalls = 0 :=
  ⟨by decide, (goal_update_semantics (FrameSource.Full (DataFrameImpl.empty (α := Nat))) 2).2.2.2.2.1
    false ⟨3, [], []⟩ ⟨[], false, none⟩ (by decide)⟩

/-- C3 counterexample: after the ten-row chunk `bT` is drained the frame holds
eleven rows at stored goal 2; calling `goal 3` — a strictly larger value than
the previously set goal 2 — does not wake the worker (it is inert because
3 ≤ 11), refuting "calling goal with a strictly larger value than before wakes
the worker". -/
theorem goal_larger_no_wake_cex :
    (fsC3.goal 2).2 = true
  ∧ (fsC3.goal 2).1 = .Streaming 2 ⟨[], false, none⟩ (DataFrameImpl.ofBatch bA) true
  ∧ burstC3 = ⟨⟨11, [], []⟩, ⟨[bT], false, none⟩, .parked, 1⟩
  ∧ fsC3b = .Streaming 2 ⟨[], false, none⟩ ⟨["a"], [bA, bT], 11⟩ false
  ∧ 2 < 3
  ∧ fsC3b.goal 3 = (fsC3b, false) := by decide

/-- C1 evaluated at the failing input: the source streams the two one-row
chunks `bA, bB`; the preload consumes `bA`, the consumer sets goal 3, the
worker fetches `bB` into its local `buff`, then hits end-of-stream and marks
the source full without publishing `buff`.  The tick transitions to `Full`
with only the single preload row, while the eager full load of the same
stream holds both rows: the round-trip equality fails. -/
theorem roundtrip_failure :
    Loader.preload streamC1 = .ok (preloadC1, [.ok bB])
  ∧ workerBurst 0 false ⟨preloadC1.num_rows, [], [.ok bB]⟩ ⟨[], false, none⟩
      = ⟨⟨1, [], [.ok bB]⟩, ⟨[], false, none⟩, .parked, 0⟩
  ∧ (FrameSource.streaming preloadC1 [.ok bB]).1.goal 3
      = (.Streaming 3 ⟨[], false, none⟩ preloadC1 true, true)
  ∧ burstC1 = ⟨⟨2, [bB], []⟩, ⟨[], true, none⟩, .markedFull, 2⟩
  ∧ tickC1 = some (.Full preloadC1)
  ∧ preloadC1.num_rows = 1
  ∧ Loader.loadFull streamC1 = .ok (some ⟨["a"], [bA, bB], 2⟩) := by decide

/-- C2 evaluated at the failing input: with preload `bA` (one row) and goal 3,
the worker fetches `bB` (raising its `loaded` count to N = 2) and then hits
the stream error "boom"; it records the error and returns without publishing
`bB`.  The tick transitions to the `Error` state carrying "boom" but exposing
only the one preload row, not the N = 2 rows loaded. -/
theorem error_rows_lost :
    burstC2 = ⟨⟨2, [bB], []⟩, ⟨[], false, some "boom"⟩, .markedError, 2⟩
  ∧ burstC2.w.loaded = 2
  ∧ tickC2 = some (.Error (DataFrameImpl.ofBatch bA) "boom")
  ∧ (DataFrameImpl.ofBatch bA).num_rows = 1 := by decide

/-- C5: Scenario A — ten 1000-row chunks; the loader's synchronous preload
fetch consumes exactly the first chunk (1000 rows); the spawned worker starts
with `loaded = 1000` against the initial goal 0 and parks after zero
`chunks.next()` calls; the consumer's `goal 1` call is inert (1 ≤ 1000), so no
worker run is ever woken with a goal above 1000: the preload chunk is the only
chunk ever fetched. -/
theorem scenario_a_single_chunk :
    Loader.preload streamC5 = .ok (preloadC5, restC5)
  ∧ preloadC5.num_rows = 1000
  ∧ initialBurstC5 = ⟨⟨1000, [], restC5⟩, ⟨[], false, none⟩, .parked, 0⟩
  ∧ (FrameSource.streaming preloadC5 restC5).1.goal 1
      = ((FrameSource.streaming preloadC5 restC5).1, false)
  ∧ (∀ (c : Bool) (p : Pending Nat),
      (workerBurst 0 c ⟨1000, [], restC5⟩ p).nextCalls = 0) := by
  refine ⟨rfl, rfl, rfl, rfl, fun c p => workerBurst_caught_up 0 c _ p (Nat.zero_le _)⟩

theorem fineStep_canceled (s : FineState α) : (fineStep s).canceled = s.canceled := by
  obtain ⟨pc, g, l, bf, st, p, c⟩ := s
  cases pc
  case whileCheck => simp only [fineStep]; split <;> rfl
  case cancelCheckA => simp only [fineStep]; split <;> rfl
  case fetch =>
    simp only [fineStep]
    cases st with
    | nil => rfl
    | cons hd tl => cases hd <;> rfl
  case cancelCheckB => simp only [fineStep]; split <;> rfl
  case publish => simp only [fineStep]; split <;> rfl
  case parked => rfl
  case exited => rfl

theorem fineStep_pc_ne_fetch (s : FineState α) (hc : s.canceled = true)
    (hp : s.pc ≠ .fetch) : (fineStep s).pc ≠ .fetch := by
  obtain ⟨pc, g, l, bf, st, p, c⟩ := s
  simp only at hc
  subst hc
  cases pc
  case whileCheck => simp only [fineStep]; split <;> simp
  case cancelCheckA => simp [fineStep]
  case fetch => exact absurd rfl hp
  case cancelCheckB => simp [fineStep]
  case publish => simp only [fineStep]; split <;> simp
  case parked => simp [fineStep]
  case exited => simp [fineStep]

theorem fetchCount_zero (n : Nat) :
    ∀ (s : FineState α), s.canceled = true → s.pc ≠ .fetch → fetchCount s n = 0 := by
  induction n with
  | zero => intro s _ _; rfl
  | succ m ih =>
    intro s hc hp
    unfold fetchCount
    rw [if_neg hp,
      ih (fineStep s) ((fineStep_canceled s).trans hc) (fineStep_pc_ne_fetch s hc hp)]

/-- C4: once the consumer handle is dropped (the cancellation flag is set and
stays set), the instruction-level worker performs at most one further
`chunks.next()` call in any number of remaining steps, is fully exited within
four steps, and performs no fetch at all once it has observed cancellation and
exited. -/
theorem cancellation_fetch_bound (s : FineState α) (n : Nat) (h : s.canceled = true) :
    fetchCount s n ≤ 1
  ∧ (fineStepN 4 s).pc = .exited
  ∧ (s.pc = .exited → fetchCount s n = 0) := by
  refine ⟨?_, ?_, fun hp => fetchCount_zero n s h (by rw [hp]; intro hh; cases hh)⟩
  · by_cases hp : s.pc = .fetch
    · cases n with
      | zero => exact Nat.zero_le 1
      | succ m =>
        unfold fetchCount
        rw [if_pos hp]
        have h2 : fetchCount (fineStep s) m = 0 := by
          refine fetchCount_zero m (fineStep s) ((fineStep_canceled s).trans h) ?_
          obtain ⟨pc, g, l, bf, st, p, c⟩ := s
          simp only at hp
          subst hp
          cases st with
          | nil => simp [fineStep]
          | cons hd tl => cases hd <;> simp [fineStep]
        rw [h2]
    · rw [fetchCount_zero n s h hp]
      exact Nat.zero_le 1
  · obtain ⟨pc, g, l, bf, st, p, c⟩ := s
    simp only at h
    subst h
    cases pc
    case whileCheck => by_cases hl : l < g <;> simp [fineStepN, fineStep, hl]
    case cancelCheckA => simp [fineStepN, fineStep]
    case fetch =>
      cases st with
      | nil => simp [fineStepN, fineStep]
      | cons hd tl =>
        cases hd with
        | ok b => by_cases hl : l + b.num_rows < g <;> simp [fineStepN, fineStep, hl]
        | error e => simp [fineStepN, fineStep]
    case cancelCheckB => simp [fineStepN, fineStep]
    case publish =>
      by_cases hb : bf.isEmpty <;> by_cases hl : l < g <;>
        simp [fineStepN, fineStep, hb, hl]
    case parked => by_cases hl : l < g <;> simp [fineStepN, fineStep, hl]
    case exited => simp [fineStepN, fineStep]

theorem cancellation_fetch_bound_witness :
    fetchCount (⟨.fetch, 5, 0, [], [.ok bA], ⟨[], false, none⟩, true⟩ : FineState Nat) 3 ≤ 1
  ∧ (fineStepN 4 (⟨.fetch, 5, 0, [], [.ok bA], ⟨[], false, none⟩, true⟩ : FineState Nat)).pc
      = .exited
  ∧ ((⟨.fetch, 5, 0, [], [.ok bA], ⟨[], false, none⟩, true⟩ : FineState Nat).pc = .exited →
      fetchCount (⟨.fetch, 5, 0, [], [.ok bA], ⟨[], false, none⟩, true⟩ : FineState Nat) 3 = 0) :=
  cancellation_fetch_bound ⟨.fetch, 5, 0, [], [.ok bA], ⟨[], false, none⟩, true⟩ 3 rfl

/-- C9 counterexample: on a fully successful engine run, the call trace of
`Connection::chunks` contains no `duckdb_pending_execute_task` increment at
all — there is no per-increment tri-state drive loop — and exactly one
`duckdb_execute_pending` call, the single blocking call the claim denies. -/
theorem chunks_no_increment_cex :
    ¬ usesIncrementalDrive (Connection.chunks ⟨true, "", true, true⟩).1
  ∧ (Connection.chunks ⟨true, "", true, true⟩).1.count .executePending = 1 := by decide

/-- C9 (amended): `Connection::chunks` prepares the statement, converts it to
a pending streaming result, and then completes execution with at most one
blocking `duckdb_execute_pending` call (exactly the five-call success trace
when every native call succeeds, a prepare error otherwise); it never issues a
`duckdb_pending_execute_task` tri-state increment. -/
theorem chunks_two_phase_single_execute (e : EngineRun) :
    (Connection.chunks e).1.count .pendingExecuteTask = 0
  ∧ (Connection.chunks e).1.count .executePending ≤ 1
  ∧ (e.prepareOk = true → e.pendingOk = true → e.execOk = true →
      Connection.chunks e
        = ([.prepare, .pendingPreparedStreaming, .executePending, .destroyPrepare,
            .destroyPending], .ok ()))
  ∧ (e.prepareOk = false →
      Connection.chunks e
        = ([.prepare, .destroyPrepare, .destroyPending], .error (.Prepare e.prepareMsg))) := by
  obtain ⟨po, msg, qo, eo⟩ := e
  cases po <;> cases qo <;> cases eo <;>
    refine ⟨?_, ?_, ?_, ?_⟩ <;> simp [Connection.chunks]

theorem chunks_two_phase_single_execute_witness :
    (Connection.chunks ⟨true, "boom", true, true⟩).1.count .pendingExecuteTask = 0
  ∧ Connection.chunks ⟨true, "boom", true, true⟩
      = ([.prepare, .pendingPreparedStreaming, .executePending, .destroyPrepare,
          .destroyPending], .ok ()) :=
  ⟨(chunks_two_phase_single_execute ⟨true, "boom", true, true⟩).1,
   (chunks_two_phase_single_execute ⟨true, "boom", true, true⟩).2.2.1 rfl rfl rfl⟩

/-- C10: when the worker thread terminated without delivering a result (the
oneshot sender was dropped unsent, so the channel is disconnected), the next
`tick()` returns the error "Task failed without error" — it neither blocks
nor reports the task as still pending, which is the distinct `Empty` case. -/
theorem task_dead_worker_error (τ : Type) :
    Task.tick (OneshotState.disconnected : OneshotState (Except String τ))
      = .error "Task failed without error"
  ∧ DuckTask.tick (OneshotState.disconnected : OneshotState (Except String τ))
      = some (.error "Task failed without error")
  ∧ Task.tick (OneshotState.empty : OneshotState (Except String τ)) = .ok none
  ∧ DuckTask.tick (OneshotState.empty : OneshotState (Except String τ)) = none :=
  ⟨rfl, rfl, rfl, rfl⟩

end Dtex
